import Mathlib

/-!
Verification of the file precedence / policy core of `code/filesystem/fs_misc.c`
(ioq3 new filesystem).  The C data structures and functions are shallowly
embedded: machine integers become `Nat`/`Int` with explicit reductions where
overflow matters, byte buffers become `List Nat` (each element a byte value),
and the global cvar/enumeration state consumed by the functions becomes an
explicit environment record.  Each embedded definition mirrors the control
flow of the corresponding C function; early `return` statements become nested
`if`/`match` expressions.
-/

set_option maxRecDepth 10000

namespace FsMisc

/- ********************************************************************** -/
/- File sorting: `fsc_stream_t`, `get_string_sort_table`,                  -/
/- `fs_write_sort_string`, `fs_write_sort_value`                           -/
/- ********************************************************************** -/

/-- Embedding of `fsc_stream_t`: `data` holds the bytes written so far (so
`data.length` is the C `position`), `size` is the buffer capacity. -/
structure fsc_stream where
  data : List Nat
  size : Nat
  deriving DecidableEq

/-- Descending index sequence `hi, hi-1, ..., lo`, used to mirror the C loops
`for(i=hi; i>=lo; --i)` in `get_string_sort_table`. -/
def desc_range (hi lo : Nat) : List Nat :=
  (List.range (hi + 1 - lo)).map (fun k => hi - k)

/-- Mirrors one `for(i=hi; i>=lo; --i) table[i] = value--;` pass of
`get_string_sort_table`: assigns `v, v-1, ...` to the given indices and
returns the table together with the final value of `value`. -/
def table_set_pass (t : List Nat) (v : Nat) : List Nat → List Nat × Nat
  | [] => (t, v)
  | i :: rest => table_set_pass (t.set i v) (v - 1) rest

/-- Mirrors the final `for(i=255; i>=0; --i) if(!table[i]) table[i] = value--;`
pass of `get_string_sort_table`: assigns descending values to the indices
whose entry is still zero. -/
def table_fill_pass (t : List Nat) (v : Nat) : List Nat → List Nat × Nat
  | [] => (t, v)
  | i :: rest =>
      if t.getD i 0 == 0 then table_fill_pass (t.set i v) (v - 1) rest
      else table_fill_pass t v rest

/-- Embedding of the static collation table built by `get_string_sort_table`:
starting from an all-zero 256-entry table, the passes run over `z..a` from
value 250, `Z..A` from value 250 again, `9..0` continuing with the running
value, and finally `255..0` filling every still-zero entry with the running
value.  (Byte codes: `a` = 97, `z` = 122, `A` = 65, `Z` = 90, `0` = 48,
`9` = 57.) -/
def string_sort_table : List Nat :=
  let t0 := List.replicate 256 0
  let p1 := table_set_pass t0 250 (desc_range 122 97)
  let p2 := table_set_pass p1.1 250 (desc_range 90 65)
  let p3 := table_set_pass p2.1 p2.2 (desc_range 57 48)
  (table_fill_pass p3.1 p3.2 (desc_range 255 0)).1

/-- Table lookup `sort_table[c]` for a byte value `c`. -/
def sort_table_val (c : Nat) : Nat :=
  string_sort_table.getD c 0

/-- Character-copy loop of `fs_write_sort_string`:
`while(*string && output->position < output->size)
   output->data[output->position++] = sort_table[*string++];`.
The input string is the list of its (nonzero) bytes. -/
def write_sort_chars : List Nat → fsc_stream → fsc_stream
  | [], out => out
  | c :: rest, out =>
      if out.data.length < out.size then
        write_sort_chars rest ⟨out.data ++ [sort_table_val c], out.size⟩
      else out

/-- Embedding of `fs_write_sort_string`: transliterates the string through the
collation table, then appends the terminator byte (255 when
`prioritize_shorter`, otherwise 0) if there is room. -/
def fs_write_sort_string (s : List Nat) (out : fsc_stream) (prioritize_shorter : Bool) : fsc_stream :=
  let out := write_sort_chars s out
  if out.data.length < out.size then
    ⟨out.data ++ [if prioritize_shorter then 255 else 0], out.size⟩
  else out

/-- Big-endian byte sequence of a 32-bit value, most significant byte first.
This is the byte sequence `fs_write_sort_value` stores: on a little-endian
host the C code byte-swaps `value` before the 32-bit store, on a big-endian
host it stores `value` directly, so the bytes that land in the buffer are the
big-endian bytes of `value` either way (`byte_swap32` below embeds the swap
and `byte_swap32_store` proves the little-endian path agrees). -/
def sort_value_bytes (v : Nat) : List Nat :=
  [v / 2 ^ 24 % 256, v / 2 ^ 16 % 256, v / 2 ^ 8 % 256, v % 256]

/-- Embedding of the byte swap performed by `fs_write_sort_value` on a
little-endian host:
`value = ((value << 8) & 0xFF00FF00) | ((value >> 8) & 0xFF00FF);`
`value = (value << 16) | (value >> 16);`
with `unsigned int` arithmetic taken modulo `2^32`. -/
def byte_swap32 (v : Nat) : Nat :=
  let v1 := ((v <<< 8) % 2 ^ 32) &&& 0xFF00FF00 ||| (v >>> 8) &&& 0xFF00FF
  ((v1 <<< 16) % 2 ^ 32) ||| (v1 >>> 16)

/-- Byte sequence of a 32-bit store of `w` on a little-endian host (least
significant byte at the lowest address). -/
def le_store_bytes (w : Nat) : List Nat :=
  [w % 256, w / 2 ^ 8 % 256, w / 2 ^ 16 % 256, w / 2 ^ 24 % 256]

/-- Embedding of `fs_write_sort_value`: if `position + 3 < size`, the four
(big-endian) bytes of `value` are appended; otherwise nothing is written. -/
def fs_write_sort_value (value : Nat) (out : fsc_stream) : fsc_stream :=
  if out.data.length + 3 < out.size then ⟨out.data ++ sort_value_bytes value, out.size⟩
  else out

/-- Unsigned byte-wise lexicographic strict comparison of two byte sequences
(`memcmp` order, a strict sequence additionally ordered below its
extensions). -/
def bytes_lex_lt : List Nat → List Nat → Bool
  | [], [] => false
  | [], _ :: _ => true
  | _ :: _, [] => false
  | a :: as, b :: bs => if a < b then true else if b < a then false else bytes_lex_lt as bs

/-- Modelled from the spec: the sort-key comparator direction.  The modules
that sort with these keys (`fs_filelist.c`, `fs_lookup.c`, `fs_reference.c`)
are not part of this source file; per the spec a key that compares byte-wise
larger wins, i.e. sorts first ("bigger key wins", matching
`fs_compare_pk3_source` in this file, which returns
`fsc_memcmp(stream2.data, stream1.data, ...)` so that a byte-wise larger
`file1` key yields a negative, file1-first result).  `k1` sorts before `k2`
exactly when `k2` is byte-wise lexicographically below `k1`. -/
def key_sorts_before (k1 k2 : List Nat) : Bool :=
  bytes_lex_lt k2 k1

/-- Sort key produced by `fs_write_sort_string` for string `s` into an empty
stream of capacity `cap`. -/
def sort_string_key (s : List Nat) (prioritize_shorter : Bool) (cap : Nat) : List Nat :=
  (fs_write_sort_string s ⟨[], cap⟩ prioritize_shorter).data

/- ********************************************************************** -/
/- Hash table: `fs_hashtable_t`, insert / iterate / next                   -/
/- ********************************************************************** -/

/-- Embedding of `fs_hashtable_t`.  Each bucket is the list of its entries,
head first (the C buckets are singly linked intrusive chains); an entry's
`next` pointer is the tail of the list it sits in. -/
structure fs_hashtable (E : Type) where
  bucket_count : Nat
  buckets : List (List E)
  element_count : Nat
  deriving DecidableEq

/-- Embedding of `fs_hashtable_initialize` (renamed: Lean file hygiene):
`bucket_count` empty buckets, zero elements.  The C function asserts
`bucket_count > 0`. -/
def fs_hashtable_init (E : Type) (bucket_count : Nat) : fs_hashtable E :=
  ⟨bucket_count, List.replicate bucket_count [], 0⟩

/-- Embedding of `fs_hashtable_insert`: prepends the entry to bucket
`hash % bucket_count` and increments the element count. -/
def fs_hashtable_insert {E : Type} (ht : fs_hashtable E) (entry : E) (hash : Nat) : fs_hashtable E :=
  let index := hash % ht.bucket_count
  { ht with
    buckets := ht.buckets.set index (entry :: ht.buckets.getD index [])
    element_count := ht.element_count + 1 }

/-- Embedding of `fs_hashtable_iterator_t`.  `ht_buckets` stands for the
`ht` back-pointer (iteration never mutates the table, so the bucket array is
carried by value); `current_entry` is the remaining chain of the bucket being
walked. -/
structure fs_hashtable_iterator (E : Type) where
  ht_buckets : List (List E)
  current_bucket : Nat
  bucket_limit : Nat
  current_entry : List E
  deriving DecidableEq

/-- Embedding of `fs_hashtable_iterate`: with `iterate_all` set, or on a
zero-bucket table, the cursor ranges over every bucket; otherwise over the
single bucket `hash % bucket_count`. -/
def fs_hashtable_iterate {E : Type} (ht : fs_hashtable E) (hash : Nat) (iterate_all : Bool) :
    fs_hashtable_iterator E :=
  if ht.bucket_count == 0 || iterate_all then
    ⟨ht.buckets, 0, ht.bucket_count, []⟩
  else
    let cur := hash % ht.bucket_count
    ⟨ht.buckets, cur, cur + 1, []⟩

/-- The bucket-advance loop of `fs_hashtable_next`:
`while(!entry) { if(current_bucket >= bucket_limit) return 0;
                 entry = buckets[current_bucket++]; }`.
The fuel argument is instantiated with `bucket_limit - current_bucket`, which
makes the `current_bucket >= bucket_limit` exit the `fuel = 0` case.  Returns
the yielded entry, the new `current_bucket`, and the rest of its chain. -/
def hashtable_next_loop {E : Type} (buckets : List (List E)) :
    Nat → Nat → Option (E × Nat × List E)
  | 0, _ => none
  | fuel + 1, cur =>
      match buckets.getD cur [] with
      | [] => hashtable_next_loop buckets fuel (cur + 1)
      | e :: rest => some (e, cur + 1, rest)

/-- Embedding of `fs_hashtable_next`: yields the next entry (advancing the
iterator) or `none` when the iteration is exhausted. -/
def fs_hashtable_next {E : Type} (it : fs_hashtable_iterator E) :
    Option (E × fs_hashtable_iterator E) :=
  match it.current_entry with
  | e :: rest => some (e, { it with current_entry := rest })
  | [] =>
      match hashtable_next_loop it.ht_buckets (it.bucket_limit - it.current_bucket)
          it.current_bucket with
      | none => none
      | some (e, cur, rest) =>
          some (e, { it with current_bucket := cur, current_entry := rest })

/-- Drains an iterator by repeated `fs_hashtable_next`, with explicit fuel. -/
def hashtable_drain {E : Type} : Nat → fs_hashtable_iterator E → List E
  | 0, _ => []
  | fuel + 1, it =>
      match fs_hashtable_next it with
      | none => []
      | some (e, it') => e :: hashtable_drain fuel it'

/-- Fuel that always suffices to drain an iterator completely. -/
def iterator_fuel {E : Type} (it : fs_hashtable_iterator E) : Nat :=
  it.current_entry.length + (it.ht_buckets.map List.length).sum + it.bucket_limit + 1

/-- The full sequence of entries yielded by an iterator, in yield order. -/
def fs_hashtable_toList {E : Type} (it : fs_hashtable_iterator E) : List E :=
  hashtable_drain (iterator_fuel it) it

/- ********************************************************************** -/
/- Pk3 list: `pk3_list_t`, lookup / insert                                 -/
/- ********************************************************************** -/

/-- Embedding of `pk3_list_entry_t` (the intrusive `hte` link is the list
structure itself). -/
structure pk3_list_entry where
  hash : Nat
  position : Nat
  deriving DecidableEq

/-- Embedding of `pk3_list_t`. -/
structure pk3_list where
  ht : fs_hashtable pk3_list_entry
  deriving DecidableEq

/-- Embedding of `pk3_list_initialize` (renamed: Lean file hygiene). -/
def pk3_list_init (bucket_count : Nat) : pk3_list :=
  ⟨fs_hashtable_init pk3_list_entry bucket_count⟩

/-- Embedding of `pk3_list_lookup`: targeted iteration over bucket
`hash % bucket_count`, returning the position of the first entry whose hash
matches, or 0 if none does. -/
def pk3_list_lookup (l : pk3_list) (hash : Nat) : Nat :=
  match (fs_hashtable_toList (fs_hashtable_iterate l.ht hash false)).find?
      (fun e => e.hash == hash) with
  | some e => e.position
  | none => 0

/-- Embedding of `pk3_list_insert`: no-op when the hash is already present;
otherwise inserts a new entry whose position is the element count after the
insertion (the C code inserts first and then reads `ht.element_count`). -/
def pk3_list_insert (l : pk3_list) (hash : Nat) : pk3_list :=
  if pk3_list_lookup l hash != 0 then l
  else ⟨fs_hashtable_insert l.ht ⟨hash, l.ht.element_count + 1⟩ hash⟩

/-- Folds `pk3_list_insert` over a sequence of hashes, first hash first. -/
def pk3_list_insert_all (l : pk3_list) (hashes : List Nat) : pk3_list :=
  hashes.foldl pk3_list_insert l

/- ********************************************************************** -/
/- File model and environment                                              -/
/- ********************************************************************** -/

/-- Embedding of the `fsc_sourcetype` values used by this module. -/
inductive fsc_sourcetype where
  | FSC_SOURCETYPE_DIRECT
  | FSC_SOURCETYPE_PK3
  deriving DecidableEq

export fsc_sourcetype (FSC_SOURCETYPE_DIRECT FSC_SOURCETYPE_PK3)

/-- Embedding of `fs_modtype_t` (values 0..3 in the C enum). -/
inductive fs_modtype where
  | MODTYPE_INACTIVE
  | MODTYPE_BASE
  | MODTYPE_OVERRIDE_DIRECTORY
  | MODTYPE_CURRENT_MOD
  deriving DecidableEq

export fs_modtype (MODTYPE_INACTIVE MODTYPE_BASE MODTYPE_OVERRIDE_DIRECTORY MODTYPE_CURRENT_MOD)

/-- Numeric value of an `fs_modtype_t` enumerator. -/
def fs_modtype.val : fs_modtype → Nat
  | MODTYPE_INACTIVE => 0
  | MODTYPE_BASE => 1
  | MODTYPE_OVERRIDE_DIRECTORY => 2
  | MODTYPE_CURRENT_MOD => 3

/-- ASCII case-insensitive string equality; `q_stricmp_eq a b` embeds
`!Q_stricmp(a, b)` (characters compared after lower-casing, as the C
routine subtracts the case offset before comparing). -/
def q_stricmp_eq (a b : String) : Bool :=
  a.data.map Char.toLower == b.data.map Char.toLower

/-- Embedding of the `fsc_file_direct_t` fields this module reads from the
base (source pk3) file of another file: content hash, mod directory and
plain name. -/
structure fsc_base_file where
  pk3_hash : Nat
  mod_dir : String
  qp_name : String
  deriving DecidableEq

/-- Embedding of the `fsc_file_t` fields this module reads.  `pk3_hash` is
the `fsc_file_direct_t.pk3_hash` field of the file itself (meaningful when
the file is a direct-sourced pk3); `base` is the result of
`fsc_get_base_file` (the source pk3 of a pk3-sourced file, the file itself
for a direct file, `none` where the C pointer would be null), and `mod_dir`
is the result of `fsc_get_mod_dir`. -/
structure fsc_file where
  sourcetype : fsc_sourcetype
  mod_dir : String
  qp_name : String
  qp_ext : String
  pk3_hash : Nat
  base : Option fsc_base_file
  deriving DecidableEq

/-- Environment consumed by the policy / verifier functions: cvar integers,
the connected-server pure list, and the externally implemented helpers this
module calls.  `mod_type` abstracts `fs_get_mod_type` (whose result depends
on the external `fs_sanitize_mod_dir`/cvar state), `servercfg_priority`
abstracts `fs_servercfg_priority` (external cvar tokenizer),
`core_pk3_position` abstracts the pak tables of `core_pk3_position`
(external `FS_CORE_PAKS` macros), and `files_named` / `pk3s_with_hash`
abstract the `fsc_file_iterator_open(&fs, "", name)` /
`fsc_pk3_iterator_open(&fs, hash)` enumeration primitives. -/
structure fs_env where
  connected_server_pure_state : Int
  read_inactive_mods : Int
  list_inactive_mods : Int
  servercfg_listlimit : Int
  connected_server_pure_list : pk3_list
  mod_type : String → fs_modtype
  servercfg_priority : String → Nat
  core_pk3_position : Nat → Nat
  files_named : String → List fsc_file
  pk3s_with_hash : Nat → List fsc_file
  com_basegame : String

/- ********************************************************************** -/
/- File disabled check: `fs_file_disabled` and helpers                     -/
/- ********************************************************************** -/

/-- Modelled from the spec: the `FD_CHECK_*` flag values live in `fslocal.h`,
which is outside this source file; the spec only requires them to be
independent bit flags, so they are assigned distinct bits here. -/
def FD_CHECK_PURE_LIST : Nat := 1

/-- Modelled from the spec: distinct bit flag (see `FD_CHECK_PURE_LIST`). -/
def FD_CHECK_READ_INACTIVE_MODS : Nat := 2

/-- Modelled from the spec: distinct bit flag (see `FD_CHECK_PURE_LIST`). -/
def FD_CHECK_READ_INACTIVE_MODS_IGNORE_SERVERCFG : Nat := 4

/-- Modelled from the spec: distinct bit flag (see `FD_CHECK_PURE_LIST`). -/
def FD_CHECK_LIST_INACTIVE_MODS : Nat := 8

/-- Modelled from the spec: distinct bit flag (see `FD_CHECK_PURE_LIST`). -/
def FD_CHECK_LIST_SERVERCFG_LIMIT : Nat := 16

/-- Embedding of `get_pk3_list_position`: 0 for any non-pk3-sourced file,
otherwise the pure-list position of the owning pk3's hash. -/
def get_pk3_list_position (env : fs_env) (file : fsc_file) : Nat :=
  if file.sourcetype != FSC_SOURCETYPE_PK3 then 0
  else pk3_list_lookup env.connected_server_pure_list
    ((file.base.map fsc_base_file.pk3_hash).getD 0)

/-- Embedding of `inactive_mod_file_disabled`. -/
def inactive_mod_file_disabled (env : fs_env) (file : fsc_file) (level : Int)
    (ignore_servercfg : Bool) : Bool :=
  if level ≥ 2 then false
  else if (env.mod_type file.mod_dir).val > MODTYPE_INACTIVE.val then false
  else if level == 1 &&
      (match file.base with
       | some base_file =>
           pk3_list_lookup env.connected_server_pure_list base_file.pk3_hash != 0 ||
           env.core_pk3_position base_file.pk3_hash != 0
       | none => false) then false
  else if !ignore_servercfg && env.servercfg_priority file.mod_dir != 0 then false
  else true

/-- Condition of the pure list check of `fs_file_disabled`:
`fs_connected_server_pure_state() == 1` and `!get_pk3_list_position(file)`. -/
def fd_trigger_pure_list (env : fs_env) (file : fsc_file) : Bool :=
  env.connected_server_pure_state == 1 && get_pk3_list_position env file == 0

/-- Condition of the read inactive mods check of `fs_file_disabled`. -/
def fd_trigger_read_inactive (env : fs_env) (file : fsc_file) : Bool :=
  inactive_mod_file_disabled env file env.read_inactive_mods false

/-- Condition of the read inactive mods (ignore servercfg) check of
`fs_file_disabled`. -/
def fd_trigger_read_inactive_ignore (env : fs_env) (file : fsc_file) : Bool :=
  inactive_mod_file_disabled env file env.read_inactive_mods true

/-- Condition of the list inactive mods check of `fs_file_disabled`: the
inactive-mod rule at level
`fs_read_inactive_mods < fs_list_inactive_mods ? fs_read_inactive_mods
: fs_list_inactive_mods`. -/
def fd_trigger_list_inactive (env : fs_env) (file : fsc_file) : Bool :=
  inactive_mod_file_disabled env file
    (if env.read_inactive_mods < env.list_inactive_mods then env.read_inactive_mods
     else env.list_inactive_mods) false

/-- Condition of the servercfg list limit check of `fs_file_disabled`:
limiting enabled, file not in a servercfg directory, and (at setting 1) not
a core pak. -/
def fd_trigger_servercfg_limit (env : fs_env) (file : fsc_file) : Bool :=
  env.servercfg_listlimit != 0 && env.servercfg_priority file.mod_dir == 0 &&
  (if env.servercfg_listlimit == 1 then
    !(match file.base with
      | some base_file => env.core_pk3_position base_file.pk3_hash != 0
      | none => false)
   else true)

/-- Embedding of `fs_file_disabled`: each C early `return` becomes an
`if ... then identifier else ...` link of the chain, in the source's check
order. -/
def fs_file_disabled (env : fs_env) (file : fsc_file) (checks : Nat) : Nat :=
  if checks &&& FD_CHECK_PURE_LIST != 0 && fd_trigger_pure_list env file then
    FD_CHECK_PURE_LIST
  else if checks &&& FD_CHECK_READ_INACTIVE_MODS != 0 &&
      fd_trigger_read_inactive env file then
    FD_CHECK_READ_INACTIVE_MODS
  else if checks &&& FD_CHECK_READ_INACTIVE_MODS_IGNORE_SERVERCFG != 0 &&
      fd_trigger_read_inactive_ignore env file then
    FD_CHECK_READ_INACTIVE_MODS_IGNORE_SERVERCFG
  else if checks &&& FD_CHECK_LIST_INACTIVE_MODS != 0 &&
      fd_trigger_list_inactive env file then
    FD_CHECK_LIST_INACTIVE_MODS
  else if checks &&& FD_CHECK_LIST_SERVERCFG_LIMIT != 0 &&
      fd_trigger_servercfg_limit env file then
    FD_CHECK_LIST_SERVERCFG_LIMIT
  else 0

/-- Trigger condition of each `FD_CHECK_*` check, independent of the request
mask, for stating the fixed evaluation order of `fs_file_disabled`. -/
def fd_check_triggers (env : fs_env) (file : fsc_file) (check : Nat) : Bool :=
  if check == FD_CHECK_PURE_LIST then fd_trigger_pure_list env file
  else if check == FD_CHECK_READ_INACTIVE_MODS then fd_trigger_read_inactive env file
  else if check == FD_CHECK_READ_INACTIVE_MODS_IGNORE_SERVERCFG then
    fd_trigger_read_inactive_ignore env file
  else if check == FD_CHECK_LIST_INACTIVE_MODS then fd_trigger_list_inactive env file
  else if check == FD_CHECK_LIST_SERVERCFG_LIMIT then fd_trigger_servercfg_limit env file
  else false

/-- The fixed priority order in which `fs_file_disabled` evaluates its
checks. -/
def fd_check_order : List Nat :=
  [FD_CHECK_PURE_LIST, FD_CHECK_READ_INACTIVE_MODS,
   FD_CHECK_READ_INACTIVE_MODS_IGNORE_SERVERCFG, FD_CHECK_LIST_INACTIVE_MODS,
   FD_CHECK_LIST_SERVERCFG_LIMIT]

/- ********************************************************************** -/
/- Core pak verification: `get_pak_state`, `fs_check_core_paks`            -/
/- ********************************************************************** -/

/-- Embedding of `core_pak_state_t`. -/
structure core_pak_state where
  name_match : Option fsc_file
  hash_match : Option fsc_file
  deriving DecidableEq

/-- The `if(mod && Q_stricmp(fsc_get_mod_dir(...), mod)) continue;` filter:
true when a mod is requested and the directory differs. -/
def pak_mod_mismatch (mod : Option String) (mod_dir : String) : Bool :=
  match mod with
  | some m => !q_stricmp_eq mod_dir m
  | none => false

/-- Second loop of `get_pak_state`: the first non-disabled file of the
hash-indexed pk3 iteration. -/
def pak_hash_scan (env : fs_env) (hash : Nat) : Option fsc_file :=
  (env.pk3s_with_hash hash).find?
    (fun pk3 => fs_file_disabled env pk3 FD_CHECK_READ_INACTIVE_MODS == 0)

/-- First loop of `get_pak_state` over the name-indexed file iteration,
carrying the running `name_match`; when the loop finishes, the hash scan
supplies the `hash_match`. -/
def get_pak_state_loop (env : fs_env) (mod : Option String) (hash : Nat) :
    List fsc_file → Option fsc_file → core_pak_state
  | [], name_match => ⟨name_match, pak_hash_scan env hash⟩
  | file :: rest, name_match =>
      if file.sourcetype != FSC_SOURCETYPE_DIRECT then
        get_pak_state_loop env mod hash rest name_match
      else if fs_file_disabled env file FD_CHECK_READ_INACTIVE_MODS != 0 then
        get_pak_state_loop env mod hash rest name_match
      else if !q_stricmp_eq file.qp_ext ".pk3" then
        get_pak_state_loop env mod hash rest name_match
      else if pak_mod_mismatch mod file.mod_dir then
        get_pak_state_loop env mod hash rest name_match
      else if file.pk3_hash == hash then ⟨some file, some file⟩
      else get_pak_state_loop env mod hash rest (some file)

/-- Embedding of `get_pak_state`: locates name and hash matches for one
expected pak. -/
def get_pak_state (env : fs_env) (mod : Option String) (filename : String) (hash : Nat) :
    core_pak_state :=
  get_pak_state_loop env mod hash (env.files_named filename) none

/-- Filter deciding which files of the name iteration `get_pak_state`
considers: direct-sourced, not read-disabled, `.pk3` extension, matching the
requested mod directory. -/
def pak_qualifies (env : fs_env) (mod : Option String) (file : fsc_file) : Bool :=
  file.sourcetype == FSC_SOURCETYPE_DIRECT &&
  fs_file_disabled env file FD_CHECK_READ_INACTIVE_MODS == 0 &&
  q_stricmp_eq file.qp_ext ".pk3" &&
  !pak_mod_mismatch mod file.mod_dir

/-- Embedding of `check_default_cfg_pk3` over the environment's `default`
name iteration. -/
def check_default_cfg_loop (env : fs_env) (mod : Option String) (filename : String)
    (hash : Nat) : List fsc_file → Bool
  | [] => false
  | file :: rest =>
      if fs_file_disabled env file FD_CHECK_READ_INACTIVE_MODS != 0 then
        check_default_cfg_loop env mod filename hash rest
      else if file.sourcetype != FSC_SOURCETYPE_PK3 then
        check_default_cfg_loop env mod filename hash rest
      else if !q_stricmp_eq file.qp_ext ".cfg" then
        check_default_cfg_loop env mod filename hash rest
      else
        match file.base with
        | none => check_default_cfg_loop env mod filename hash rest
        | some source_pk3 =>
            if source_pk3.pk3_hash == hash then true
            else if pak_mod_mismatch mod source_pk3.mod_dir then
              check_default_cfg_loop env mod filename hash rest
            else if q_stricmp_eq source_pk3.qp_name filename then true
            else check_default_cfg_loop env mod filename hash rest

/-- Embedding of `check_default_cfg_pk3`: is there a pk3 containing a
`default.cfg` with either the given name or the given hash? -/
def check_default_cfg_pk3 (env : fs_env) (mod : Option String) (filename : String)
    (hash : Nat) : Bool :=
  check_default_cfg_loop env mod filename hash (env.files_named "default")

/-- Warning events produced by `generate_pak_warnings` /
`fs_check_core_paks` (console messages and warning-popup lines). -/
inductive pak_warning where
  /-- `NOTE: %s/%s.pk3 is misnamed, found correct file at %s` -/
  | misnamed
  /-- `WARNING: %s/%s.pk3 has incorrect hash, found correct file at %s` -/
  | wrong_hash_found_elsewhere
  /-- `WARNING: %s/%s.pk3 has incorrect hash` (also a popup line) -/
  | incorrect_hash
  /-- `WARNING: %s/%s.pk3 not found` (also a popup line) -/
  | not_found
  /-- `WARNING: default.cfg not found - pak0.pk3 may be corrupt` -/
  | default_cfg_missing
  deriving DecidableEq

/-- Embedding of `generate_pak_warnings`: the warning events for one pak
state (none in the exact-match case). -/
def generate_pak_warnings (state : core_pak_state) : List pak_warning :=
  match state.hash_match with
  | some hash_match =>
      match state.name_match with
      | none => [pak_warning.misnamed]
      | some name_match =>
          if name_match ≠ hash_match then [pak_warning.wrong_hash_found_elsewhere] else []
  | none =>
      match state.name_match with
      | some _ => [pak_warning.incorrect_hash]
      | none => [pak_warning.not_found]

/-- The `core_hashes` table. -/
def core_hashes : List Nat :=
  [1566731103, 298122907, 412165236, 2991495316, 1197932710, 4087071573,
   3709064859, 908855077, 977125798]

/-- The `missionpack_hashes` table. -/
def missionpack_hashes : List Nat :=
  [2430342401, 511014160, 2662638993, 1438664554]

/-- The `BASEGAME` macro (defined outside this source file as `"baseq3"`). -/
def BASEGAME : String := "baseq3"

/-- The `core_states` array of `fs_check_core_paks`:
`get_pak_state(BASEGAME, va("pak%i", i), core_hashes[i])` for i = 0..8. -/
def core_pak_states (env : fs_env) : List core_pak_state :=
  (List.range core_hashes.length).map
    (fun i => get_pak_state env (some BASEGAME) ("pak" ++ toString i) (core_hashes.getD i 0))

/-- The `missionpack_states` array of `fs_check_core_paks`. -/
def missionpack_pak_states (env : fs_env) : List core_pak_state :=
  (List.range missionpack_hashes.length).map
    (fun i => get_pak_state env (some "missionpack") ("pak" ++ toString i)
      (missionpack_hashes.getD i 0))

/-- Embedding of `fs_check_core_paks`.  Result: the value `com_standalone`
is set to (standalone mode signalled, with early return) paired with the
warning events emitted.  The `Sys_Dialog` popup only displays the collected
warning lines, so it is covered by the event list. -/
def fs_check_core_paks (env : fs_env) : Bool × List pak_warning :=
  let core_states := core_pak_states env
  let missionpack_states := missionpack_pak_states env
  let missionpack_installed := missionpack_states.any
    (fun s => s.name_match.isSome || s.hash_match.isSome)
  let have_id_pak := core_states.any (fun s => s.hash_match.isSome) ||
    missionpack_states.any (fun s => s.hash_match.isSome)
  if !q_stricmp_eq env.com_basegame BASEGAME && !have_id_pak then
    (true, [])
  else
    let warnings := (core_states.map generate_pak_warnings).flatten ++
      (if missionpack_installed then (missionpack_states.map generate_pak_warnings).flatten
       else [])
    let pak0_state := core_states.getD 0 ⟨none, none⟩
    let warnings := warnings ++
      (if (pak0_state.name_match.isSome || pak0_state.hash_match.isSome) &&
          !check_default_cfg_pk3 env (some BASEGAME) "pak0" (core_hashes.getD 0 0) then
        [pak_warning.default_cfg_missing]
       else [])
    (false, warnings)

/- ********************************************************************** -/
/- Concrete sample instances (used by witnesses and counterexamples)       -/
/- ********************************************************************** -/

/-- Sample direct-sourced `.pk3` file in `baseq3`, content hash 111, no base
file. -/
def pak_file_a : fsc_file :=
  ⟨FSC_SOURCETYPE_DIRECT, "baseq3", "pak0", ".pk3", 111, none⟩

/-- Second sample direct-sourced `.pk3` file in `baseq3`, content hash 222. -/
def pak_file_b : fsc_file :=
  ⟨FSC_SOURCETYPE_DIRECT, "baseq3", "pak0", ".pk3", 222, none⟩

/-- Baseline sample environment: pure state 1, all levels 0, empty pure
list, every mod inactive, no servercfg, no core paks, no enumerated files,
base game `baseq3`. -/
def sample_env : fs_env :=
  ⟨1, 0, 0, 0, pk3_list_init 1, fun _ => MODTYPE_INACTIVE, fun _ => 0, fun _ => 0,
    fun _ => [], fun _ => [], "baseq3"⟩

/-- Environment for the list-inactive-mods witness: read level 0, list
level 1, not connected pure. -/
def list_level_env : fs_env :=
  ⟨0, 0, 1, 0, pk3_list_init 1, fun _ => MODTYPE_INACTIVE, fun _ => 0, fun _ => 0,
    fun _ => [], fun _ => [], "baseq3"⟩

/-- Environment for the verifier counterexamples: nothing enumerated at all,
fully permissive read level, base game `baseq3`. -/
def empty_files_env : fs_env :=
  ⟨0, 2, 2, 0, pk3_list_init 1, fun _ => MODTYPE_INACTIVE, fun _ => 0, fun _ => 0,
    fun _ => [], fun _ => [], "baseq3"⟩

/-- As `empty_files_env` but with a non-default base game configured. -/
def standalone_env : fs_env :=
  ⟨0, 2, 2, 0, pk3_list_init 1, fun _ => MODTYPE_INACTIVE, fun _ => 0, fun _ => 0,
    fun _ => [], fun _ => [], "mygame"⟩

/-- Environment enumerating two qualifying `pak0` files (hashes 111 and
222), fully permissive read level. -/
def two_pak_env : fs_env :=
  ⟨0, 2, 2, 0, pk3_list_init 1, fun _ => MODTYPE_INACTIVE, fun _ => 0, fun _ => 0,
    fun name => if name == "pak0" then [pak_file_a, pak_file_b] else [],
    fun _ => [], "baseq3"⟩

/- ********************************************************************** -/
/- Theorems: hash table iteration                                          -/
/- ********************************************************************** -/

/-- A bucket-advance loop started at or beyond the end of the bucket array
yields nothing. -/
theorem hashtable_next_loop_out_of_range {E : Type} (buckets : List (List E)) :
    ∀ fuel cur, buckets.length ≤ cur → hashtable_next_loop buckets fuel cur = none := by
  intro fuel
  induction fuel with
  | zero => intro cur _; rfl
  | succ fuel ih =>
      intro cur hcur
      have hget : buckets.getD cur [] = [] := List.getD_eq_default _ _ hcur
      simp only [hashtable_next_loop, hget]
      exact ih (cur + 1) (Nat.le_succ_of_le hcur)

/-- If the bucket-advance loop finds nothing, the scanned slice of the bucket
array is all empty. -/
theorem hashtable_next_loop_none {E : Type} (buckets : List (List E)) :
    ∀ fuel cur, hashtable_next_loop buckets fuel cur = none →
      ((buckets.drop cur).take fuel).flatten = [] := by
  intro fuel
  induction fuel with
  | zero => intro cur _; simp
  | succ fuel ih =>
      intro cur hnone
      rcases hb : buckets.getD cur [] with _ | ⟨e, rest⟩
      · by_cases hlen : cur < buckets.length
        · rw [List.drop_eq_getElem_cons hlen]
          have hnil : buckets[cur] = [] := by
            rw [← List.getD_eq_getElem buckets [] hlen, hb]
          rw [hnil, List.take_succ_cons, List.flatten_cons]
          simp only [List.nil_append]
          apply ih (cur + 1)
          simpa only [hashtable_next_loop, hb] using hnone
        · rw [List.drop_eq_nil_of_le (Nat.le_of_not_lt hlen)]
          simp
      · simp only [hashtable_next_loop, hb] at hnone
        exact Option.noConfusion hnone

/-- If the bucket-advance loop yields `(e, cur', rest)`, the scanned slice
flattens to `e` followed by `rest` and the remaining slice, with the cursor
strictly advanced but kept within the scanned range. -/
theorem hashtable_next_loop_some {E : Type} (buckets : List (List E)) :
    ∀ fuel cur e cur' rest, hashtable_next_loop buckets fuel cur = some (e, cur', rest) →
      cur < cur' ∧ cur' ≤ cur + fuel ∧
      ((buckets.drop cur).take fuel).flatten =
        e :: (rest ++ ((buckets.drop cur').take (fuel - (cur' - cur))).flatten) := by
  intro fuel
  induction fuel with
  | zero => intro cur e cur' rest h; exact absurd h (by simp [hashtable_next_loop])
  | succ fuel ih =>
      intro cur e cur' rest hsome
      have hlen : cur < buckets.length := by
        by_contra hge
        rw [hashtable_next_loop_out_of_range buckets (fuel + 1) cur
          (Nat.le_of_not_lt hge)] at hsome
        exact Option.noConfusion hsome
      rcases hb : buckets.getD cur [] with _ | ⟨e0, rest0⟩
      · simp only [hashtable_next_loop, hb] at hsome
        obtain ⟨h1, h2, h3⟩ := ih (cur + 1) e cur' rest hsome
        refine ⟨by omega, by omega, ?_⟩
        rw [List.drop_eq_getElem_cons hlen]
        have hnil : buckets[cur] = [] := by
          rw [← List.getD_eq_getElem buckets [] hlen, hb]
        rw [hnil, List.take_succ_cons, List.flatten_cons]
        simp only [List.nil_append]
        rw [h3]
        have hidx : fuel - (cur' - (cur + 1)) = fuel + 1 - (cur' - cur) := by omega
        rw [hidx]
      · simp only [hashtable_next_loop, hb, Option.some.injEq, Prod.mk.injEq] at hsome
        obtain ⟨he, hcur', hrest⟩ := hsome
        subst he
        subst hcur'
        subst hrest
        refine ⟨Nat.lt_succ_self cur, by omega, ?_⟩
        rw [List.drop_eq_getElem_cons hlen]
        have hcons : buckets[cur] = e0 :: rest0 := by
          rw [← List.getD_eq_getElem buckets [], hb]
        rw [hcons, List.take_succ_cons, List.flatten_cons]
        have hidx : fuel + 1 - (cur + 1 - cur) = fuel := by omega
        rw [hidx]
        simp

/-- Draining an iterator with sufficient fuel yields the current chain
followed by the flattened remaining bucket slice. -/
theorem hashtable_drain_eq {E : Type} :
    ∀ (fuel : Nat) (it : fs_hashtable_iterator E),
      it.current_entry.length +
        ((it.ht_buckets.drop it.current_bucket).take
          (it.bucket_limit - it.current_bucket)).flatten.length +
        (it.bucket_limit - it.current_bucket) ≤ fuel →
      hashtable_drain fuel it =
        it.current_entry ++
          ((it.ht_buckets.drop it.current_bucket).take
            (it.bucket_limit - it.current_bucket)).flatten := by
  intro fuel
  induction fuel with
  | zero =>
      intro it h
      have h1 : it.current_entry = [] := List.length_eq_zero.1 (by omega)
      have h2 : ((it.ht_buckets.drop it.current_bucket).take
          (it.bucket_limit - it.current_bucket)).flatten = [] :=
        List.length_eq_zero.1 (by omega)
      simp [hashtable_drain, h1, h2]
  | succ fuel ih =>
      rintro ⟨bks, cur, limit, chain⟩ h
      dsimp only at h ⊢
      rcases chain with _ | ⟨e, rest⟩
      · rcases hloop : hashtable_next_loop bks (limit - cur) cur with _ | ⟨e, cur', rest⟩
        · have hflat := hashtable_next_loop_none bks _ _ hloop
          simp [hashtable_drain, fs_hashtable_next, hloop, hflat]
        · obtain ⟨h1, h2, h3⟩ := hashtable_next_loop_some bks _ _ _ _ _ hloop
          have hstep : hashtable_drain (fuel + 1)
                (⟨bks, cur, limit, []⟩ : fs_hashtable_iterator E) =
              e :: hashtable_drain fuel ⟨bks, cur', limit, rest⟩ := by
            simp [hashtable_drain, fs_hashtable_next, hloop]
          rw [hstep]
          have hlim : limit - cur' = (limit - cur) - (cur' - cur) := by omega
          have hlens := congrArg List.length h3
          simp only [List.length_cons, List.length_append] at hlens
          simp only [List.length_nil] at h
          have hih := ih ⟨bks, cur', limit, rest⟩ (by dsimp only; rw [hlim]; omega)
          dsimp only at hih
          rw [hih, List.nil_append, h3, hlim]
      · have hstep : hashtable_drain (fuel + 1)
              (⟨bks, cur, limit, e :: rest⟩ : fs_hashtable_iterator E) =
            e :: hashtable_drain fuel ⟨bks, cur, limit, rest⟩ := by
          simp [hashtable_drain, fs_hashtable_next]
        rw [hstep]
        simp only [List.length_cons] at h
        have hih := ih ⟨bks, cur, limit, rest⟩ (by dsimp only; omega)
        dsimp only at hih
        rw [hih]
        simp

/-- The flattened length of any slice of the bucket array is bounded by the
total element count of the array. -/
theorem flatten_slice_length_le {E : Type} (buckets : List (List E)) (cur limit : Nat) :
    ((buckets.drop cur).take limit).flatten.length ≤ (buckets.map List.length).sum := by
  rw [List.length_flatten]
  apply List.Sublist.sum_le_sum
  · exact List.Sublist.map List.length
      (List.Sublist.trans (List.take_sublist _ _) (List.drop_sublist _ _))
  · intro a _; exact Nat.zero_le a

/-- The full yield sequence of any iterator: the current chain followed by
the flattened slice of buckets from `current_bucket` to `bucket_limit`. -/
theorem fs_hashtable_toList_eq {E : Type} (it : fs_hashtable_iterator E) :
    fs_hashtable_toList it =
      it.current_entry ++
        ((it.ht_buckets.drop it.current_bucket).take
          (it.bucket_limit - it.current_bucket)).flatten := by
  apply hashtable_drain_eq
  have := flatten_slice_length_le it.ht_buckets it.current_bucket
    (it.bucket_limit - it.current_bucket)
  simp only [iterator_fuel]
  omega

/-- A full iteration (`iterate_all` true) yields exactly the concatenation of
all buckets, in bucket order. -/
theorem toList_iterate_all {E : Type} (ht : fs_hashtable E) (hash : Nat)
    (hlen : ht.buckets.length = ht.bucket_count) :
    fs_hashtable_toList (fs_hashtable_iterate ht hash true) = ht.buckets.flatten := by
  rw [fs_hashtable_iterate]
  simp only [Bool.or_true, if_pos]
  rw [fs_hashtable_toList_eq]
  simp only [List.drop_zero, Nat.sub_zero]
  rw [← hlen, List.take_length, List.nil_append]

/-- A targeted iteration on a zero-bucket (uninitialized) table also walks
"every bucket" (there are none): it yields the flattened bucket list, which
is empty. -/
theorem toList_iterate_zero_buckets {E : Type} (ht : fs_hashtable E) (hash : Nat)
    (hzero : ht.bucket_count = 0) (hlen : ht.buckets.length = ht.bucket_count) :
    fs_hashtable_toList (fs_hashtable_iterate ht hash false) = ht.buckets.flatten := by
  have hnil : ht.buckets = [] := List.length_eq_zero.1 (by omega)
  rw [fs_hashtable_iterate]
  simp [hzero, fs_hashtable_toList_eq, hnil]

/-- A targeted iteration on a table with buckets yields exactly the bucket
`hash % bucket_count`, head first. -/
theorem toList_iterate_targeted {E : Type} (ht : fs_hashtable E) (hash : Nat)
    (hpos : 0 < ht.bucket_count) (hlen : ht.buckets.length = ht.bucket_count) :
    fs_hashtable_toList (fs_hashtable_iterate ht hash false) =
      ht.buckets.getD (hash % ht.bucket_count) [] := by
  have hne : (ht.bucket_count == 0) = false := by
    simp only [beq_eq_false_iff_ne]; omega
  rw [fs_hashtable_iterate]
  simp only [hne, Bool.false_or, Bool.or_false, if_neg, Bool.false_eq_true,
    not_false_eq_true]
  rw [fs_hashtable_toList_eq]
  have hcur : hash % ht.bucket_count < ht.buckets.length := by
    rw [hlen]; exact Nat.mod_lt _ hpos
  simp only [List.nil_append, Nat.add_sub_cancel_left]
  rw [List.drop_eq_getElem_cons hcur, List.take_cons, List.take_zero, List.flatten_cons,
    List.flatten_nil, List.append_nil, List.getD_eq_getElem ht.buckets [] hcur]
  omega

/-- `fs_hashtable_insert` preserves the bucket count and array length and
increments the element count. -/
theorem fs_hashtable_insert_shape {E : Type} (ht : fs_hashtable E) (e : E) (hash : Nat) :
    (fs_hashtable_insert ht e hash).bucket_count = ht.bucket_count ∧
    (fs_hashtable_insert ht e hash).buckets.length = ht.buckets.length ∧
    (fs_hashtable_insert ht e hash).element_count = ht.element_count + 1 := by
  refine ⟨rfl, ?_, rfl⟩
  simp [fs_hashtable_insert]

/-- After an insert with hash `hash`, bucket `hash % bucket_count` holds the
new entry at its head, the old chain behind it. -/
theorem fs_hashtable_insert_bucket {E : Type} (ht : fs_hashtable E) (e : E) (hash : Nat)
    (hpos : 0 < ht.bucket_count) (hlen : ht.buckets.length = ht.bucket_count) :
    (fs_hashtable_insert ht e hash).buckets.getD (hash % ht.bucket_count) [] =
      e :: ht.buckets.getD (hash % ht.bucket_count) [] := by
  have hcur : hash % ht.bucket_count < ht.buckets.length := by
    rw [hlen]; exact Nat.mod_lt _ hpos
  simp only [fs_hashtable_insert]
  rw [List.getD_eq_getElem?_getD, List.getElem?_set_self', List.getElem?_eq_getElem hcur]
  simp

/-- Buckets other than `hash % bucket_count` are unchanged by an insert. -/
theorem fs_hashtable_insert_bucket_other {E : Type} (ht : fs_hashtable E) (e : E)
    (hash i : Nat) (hne : i ≠ hash % ht.bucket_count) :
    (fs_hashtable_insert ht e hash).buckets.getD i [] = ht.buckets.getD i [] := by
  simp only [fs_hashtable_insert]
  rw [List.getD_eq_getElem?_getD, List.getElem?_set_ne (Ne.symm hne),
    ← List.getD_eq_getElem?_getD]

/- ********************************************************************** -/
/- Theorems: pk3 list                                                      -/
/- ********************************************************************** -/

/-- `pk3_list_lookup` only scans the bucket of its hash. -/
theorem pk3_list_lookup_eq_bucket (l : pk3_list) (hash : Nat)
    (hpos : 0 < l.ht.bucket_count) (hlen : l.ht.buckets.length = l.ht.bucket_count) :
    pk3_list_lookup l hash =
      match (l.ht.buckets.getD (hash % l.ht.bucket_count) []).find?
          (fun e => e.hash == hash) with
      | some e => e.position
      | none => 0 := by
  rw [pk3_list_lookup, toList_iterate_targeted l.ht hash hpos hlen]

/-- The bucket count is unchanged by an insert. -/
theorem fs_hashtable_insert_bucket_count {E : Type} (ht : fs_hashtable E) (e : E)
    (hash : Nat) : (fs_hashtable_insert ht e hash).bucket_count = ht.bucket_count := rfl

/-- Looking up the hash just inserted (at the raw hash-table level) finds the
new entry's position. -/
theorem pk3_lookup_insert_self (l : pk3_list) (hash p : Nat)
    (hpos : 0 < l.ht.bucket_count) (hlen : l.ht.buckets.length = l.ht.bucket_count) :
    pk3_list_lookup ⟨fs_hashtable_insert l.ht ⟨hash, p⟩ hash⟩ hash = p := by
  have hpos2 : 0 < (fs_hashtable_insert l.ht ⟨hash, p⟩ hash).bucket_count := hpos
  have hlen2 : (fs_hashtable_insert l.ht ⟨hash, p⟩ hash).buckets.length =
      (fs_hashtable_insert l.ht ⟨hash, p⟩ hash).bucket_count := by
    simpa [fs_hashtable_insert] using hlen
  rw [pk3_list_lookup_eq_bucket ⟨fs_hashtable_insert l.ht ⟨hash, p⟩ hash⟩ hash hpos2 hlen2]
  have hb := fs_hashtable_insert_bucket l.ht ⟨hash, p⟩ hash hpos hlen
  dsimp only
  rw [fs_hashtable_insert_bucket_count, hb]
  simp [List.find?_cons]

/-- Looking up a different hash is unchanged by a raw hash-table insert. -/
theorem pk3_lookup_insert_ne (l : pk3_list) (hash p h2 : Nat) (hne : h2 ≠ hash)
    (hpos : 0 < l.ht.bucket_count) (hlen : l.ht.buckets.length = l.ht.bucket_count) :
    pk3_list_lookup ⟨fs_hashtable_insert l.ht ⟨hash, p⟩ hash⟩ h2 = pk3_list_lookup l h2 := by
  have hpos2 : 0 < (fs_hashtable_insert l.ht ⟨hash, p⟩ hash).bucket_count := hpos
  have hlen2 : (fs_hashtable_insert l.ht ⟨hash, p⟩ hash).buckets.length =
      (fs_hashtable_insert l.ht ⟨hash, p⟩ hash).bucket_count := by
    simpa [fs_hashtable_insert] using hlen
  rw [pk3_list_lookup_eq_bucket ⟨fs_hashtable_insert l.ht ⟨hash, p⟩ hash⟩ h2 hpos2 hlen2,
    pk3_list_lookup_eq_bucket l h2 hpos hlen]
  dsimp only
  rw [fs_hashtable_insert_bucket_count]
  by_cases hmod : h2 % l.ht.bucket_count = hash % l.ht.bucket_count
  · have hb := fs_hashtable_insert_bucket l.ht ⟨hash, p⟩ hash hpos hlen
    rw [hmod, hb]
    have hne2 : ((⟨hash, p⟩ : pk3_list_entry).hash == h2) = false := by
      simp [Ne.symm hne]
    simp [List.find?_cons, hne2]
  · have hb := fs_hashtable_insert_bucket_other l.ht ⟨hash, p⟩ hash
      (h2 % l.ht.bucket_count) hmod
    rw [hb]

/-- Inserting a fresh sequence of distinct hashes: shape is preserved, the
element count grows by the number of hashes, each hash looks up to its dense
1-based position offset by the starting count, and other hashes are
unaffected. -/
theorem pk3_list_insert_all_spec :
    ∀ (hashes : List Nat) (l : pk3_list),
      0 < l.ht.bucket_count → l.ht.buckets.length = l.ht.bucket_count →
      hashes.Nodup → (∀ h ∈ hashes, pk3_list_lookup l h = 0) →
      (0 < (pk3_list_insert_all l hashes).ht.bucket_count ∧
        (pk3_list_insert_all l hashes).ht.buckets.length =
          (pk3_list_insert_all l hashes).ht.bucket_count) ∧
      (pk3_list_insert_all l hashes).ht.element_count =
        l.ht.element_count + hashes.length ∧
      (∀ i (hi : i < hashes.length),
        pk3_list_lookup (pk3_list_insert_all l hashes) (hashes.get ⟨i, hi⟩) =
          l.ht.element_count + i + 1) ∧
      (∀ h, h ∉ hashes →
        pk3_list_lookup (pk3_list_insert_all l hashes) h = pk3_list_lookup l h) := by
  intro hashes
  induction hashes with
  | nil =>
      intro l h1 h2 _ _
      refine ⟨⟨h1, h2⟩, by simp [pk3_list_insert_all], ?_, ?_⟩
      · intro i hi; exact absurd hi (by simp)
      · intro h _; rfl
  | cons h0 hs ih =>
      intro l hpos hlen hnodup hzero
      have hlook0 : pk3_list_lookup l h0 = 0 := hzero h0 (by simp)
      have hins : pk3_list_insert l h0 =
          ⟨fs_hashtable_insert l.ht ⟨h0, l.ht.element_count + 1⟩ h0⟩ := by
        simp [pk3_list_insert, hlook0]
      have hstep : pk3_list_insert_all l (h0 :: hs) =
          pk3_list_insert_all (pk3_list_insert l h0) hs := rfl
      have hpos1 : 0 < (pk3_list_insert l h0).ht.bucket_count := by rw [hins]; exact hpos
      have hlen1 : (pk3_list_insert l h0).ht.buckets.length =
          (pk3_list_insert l h0).ht.bucket_count := by
        rw [hins]; simpa [fs_hashtable_insert] using hlen
      have hcount1 : (pk3_list_insert l h0).ht.element_count = l.ht.element_count + 1 := by
        rw [hins]
        rfl
      have hself : pk3_list_lookup (pk3_list_insert l h0) h0 = l.ht.element_count + 1 := by
        rw [hins]; exact pk3_lookup_insert_self l h0 _ hpos hlen
      have hother : ∀ h2, h2 ≠ h0 →
          pk3_list_lookup (pk3_list_insert l h0) h2 = pk3_list_lookup l h2 := by
        intro h2 hne
        rw [hins]; exact pk3_lookup_insert_ne l h0 _ h2 hne hpos hlen
      have hnotin : h0 ∉ hs := (List.nodup_cons.1 hnodup).1
      have hzero1 : ∀ h ∈ hs, pk3_list_lookup (pk3_list_insert l h0) h = 0 := by
        intro h hmem
        rw [hother h (fun he => hnotin (he ▸ hmem))]
        exact hzero h (List.mem_cons_of_mem _ hmem)
      obtain ⟨hwf2, hcount2, hget2, hpres2⟩ :=
        ih (pk3_list_insert l h0) hpos1 hlen1 (List.nodup_cons.1 hnodup).2 hzero1
      rw [hstep]
      refine ⟨hwf2, ?_, ?_, ?_⟩
      · rw [hcount2, hcount1]; simp [Nat.add_assoc, Nat.add_comm 1 hs.length]
      · intro i hi
        match i with
        | 0 =>
            have hg : (h0 :: hs).get ⟨0, hi⟩ = h0 := rfl
            rw [hg, hpres2 h0 hnotin, hself]
        | Nat.succ j =>
            have hj : j < hs.length := by simpa using hi
            have hg : (h0 :: hs).get ⟨j + 1, hi⟩ = hs.get ⟨j, hj⟩ := rfl
            rw [hg, hget2 j hj, hcount1]
            omega
      · intro h hmem
        have hne : h ≠ h0 := fun he => hmem (he ▸ List.mem_cons_self h0 hs)
        rw [hpres2 h (fun hmem2 => hmem (List.mem_cons_of_mem _ hmem2)), hother h hne]

/-- Lookup in a freshly created pk3 list always returns 0. -/
theorem pk3_list_lookup_init (n hash : Nat) (hpos : 0 < n) :
    pk3_list_lookup (pk3_list_init n) hash = 0 := by
  rw [pk3_list_lookup_eq_bucket (pk3_list_init n) hash hpos (by simp [pk3_list_init, fs_hashtable_init])]
  have hb : (pk3_list_init n).ht.buckets.getD
      (hash % (pk3_list_init n).ht.bucket_count) [] = [] := by
    have hmod : hash % n < n := Nat.mod_lt _ hpos
    simp only [pk3_list_init, fs_hashtable_init]
    rw [List.getD_eq_getElem (List.replicate n ([] : List pk3_list_entry)) [] (by simpa using hmod)]
    simp
  rw [hb]
  rfl

/- ********************************************************************** -/
/- Claim theorems C1, C8                                                   -/
/- ********************************************************************** -/

/-- C1: on a freshly created Pak Identity Index, inserting a sequence of K
distinct hashes makes `pk3_list_lookup` return exactly 1, 2, ..., K for them
in insertion order, `pk3_list_lookup` returns 0 for any hash never inserted,
and re-inserting an already present hash is a no-op (the list is unchanged,
so `pk3_list_lookup` keeps returning the position assigned at the first
insertion). -/
theorem pk3_list_first_insert_wins (n : Nat) (hashes : List Nat) (h2 : Nat)
    (hpos : 0 < n) (hnodup : hashes.Nodup) (hnot : h2 ∉ hashes) :
    (∀ i (hi : i < hashes.length),
      pk3_list_lookup (pk3_list_insert_all (pk3_list_init n) hashes)
        (hashes.get ⟨i, hi⟩) = i + 1) ∧
    pk3_list_lookup (pk3_list_insert_all (pk3_list_init n) hashes) h2 = 0 ∧
    (∀ h ∈ hashes,
      pk3_list_insert (pk3_list_insert_all (pk3_list_init n) hashes) h =
        pk3_list_insert_all (pk3_list_init n) hashes ∧
      pk3_list_lookup
          (pk3_list_insert (pk3_list_insert_all (pk3_list_init n) hashes) h) h =
        pk3_list_lookup (pk3_list_insert_all (pk3_list_init n) hashes) h) := by
  have hpos0 : 0 < (pk3_list_init n).ht.bucket_count := hpos
  have hlen0 : (pk3_list_init n).ht.buckets.length = (pk3_list_init n).ht.bucket_count := by
    simp [pk3_list_init, fs_hashtable_init]
  have hzero : ∀ h ∈ hashes, pk3_list_lookup (pk3_list_init n) h = 0 := by
    intro h _
    exact pk3_list_lookup_init n h hpos
  obtain ⟨hwf, hcount, hget, hpres⟩ :=
    pk3_list_insert_all_spec hashes (pk3_list_init n) hpos0 hlen0 hnodup hzero
  have hcount0 : (pk3_list_init n).ht.element_count = 0 := rfl
  refine ⟨?_, ?_, ?_⟩
  · intro i hi
    rw [hget i hi, hcount0]
    omega
  · rw [hpres h2 hnot, pk3_list_lookup_init n h2 hpos]
  · intro h hmem
    obtain ⟨⟨i, hi⟩, hgeti⟩ := List.get_of_mem hmem
    have hlook : pk3_list_lookup (pk3_list_insert_all (pk3_list_init n) hashes) h = i + 1 := by
      rw [← hgeti, hget i hi, hcount0]
      omega
    have hnoop : pk3_list_insert (pk3_list_insert_all (pk3_list_init n) hashes) h =
        pk3_list_insert_all (pk3_list_init n) hashes := by
      rw [pk3_list_insert, hlook]
      simp
    exact ⟨hnoop, by rw [hnoop]⟩

/-- Witness for C1 at a concrete index: bucket count 3, hashes 10, 20, 30,
absent hash 99. -/
theorem pk3_list_first_insert_wins_witness :
    0 < 3 ∧ ([10, 20, 30] : List Nat).Nodup ∧ (99 : Nat) ∉ [10, 20, 30] ∧
    ((∀ i (hi : i < ([10, 20, 30] : List Nat).length),
      pk3_list_lookup (pk3_list_insert_all (pk3_list_init 3) [10, 20, 30])
        (([10, 20, 30] : List Nat).get ⟨i, hi⟩) = i + 1) ∧
    pk3_list_lookup (pk3_list_insert_all (pk3_list_init 3) [10, 20, 30]) 99 = 0 ∧
    (∀ h ∈ ([10, 20, 30] : List Nat),
      pk3_list_insert (pk3_list_insert_all (pk3_list_init 3) [10, 20, 30]) h =
        pk3_list_insert_all (pk3_list_init 3) [10, 20, 30] ∧
      pk3_list_lookup
          (pk3_list_insert (pk3_list_insert_all (pk3_list_init 3) [10, 20, 30]) h) h =
        pk3_list_lookup (pk3_list_insert_all (pk3_list_init 3) [10, 20, 30]) h)) :=
  ⟨by decide, by decide, by decide,
    pk3_list_first_insert_wins 3 [10, 20, 30] 99 (by decide) (by decide) (by decide)⟩

/-- C8: `fs_hashtable_insert` places the entry at the head of bucket
`hash % bucket_count`; a subsequent targeted iteration with the same hash
yields that entry; with `iterate_all` true the cursor walks every bucket in
order and yields every stored entry, and likewise a targeted iteration on a
zero-bucket index walks every (i.e. no) bucket. -/
theorem fs_hashtable_insert_iterate_spec {E : Type} (ht : fs_hashtable E) (entry : E)
    (hash : Nat) (hpos : 0 < ht.bucket_count)
    (hlen : ht.buckets.length = ht.bucket_count) :
    ((fs_hashtable_insert ht entry hash).buckets.getD (hash % ht.bucket_count) [] =
      entry :: ht.buckets.getD (hash % ht.bucket_count) []) ∧
    ((fs_hashtable_next
        (fs_hashtable_iterate (fs_hashtable_insert ht entry hash) hash false)).map
      Prod.fst = some entry) ∧
    (∀ h2 : Nat,
      fs_hashtable_toList (fs_hashtable_iterate (fs_hashtable_insert ht entry hash) h2 true) =
        (fs_hashtable_insert ht entry hash).buckets.flatten) ∧
    (∀ (ht0 : fs_hashtable E) (h3 : Nat), ht0.bucket_count = 0 → ht0.buckets.length = 0 →
      fs_hashtable_toList (fs_hashtable_iterate ht0 h3 false) = ht0.buckets.flatten) := by
  have hlen2 : (fs_hashtable_insert ht entry hash).buckets.length =
      (fs_hashtable_insert ht entry hash).bucket_count := by
    simpa [fs_hashtable_insert] using hlen
  have hbucket := fs_hashtable_insert_bucket ht entry hash hpos hlen
  refine ⟨hbucket, ?_, ?_, ?_⟩
  · have hne : ((fs_hashtable_insert ht entry hash).bucket_count == 0) = false := by
      rw [fs_hashtable_insert_bucket_count]
      simp only [beq_eq_false_iff_ne]
      omega
    rw [fs_hashtable_iterate]
    simp only [hne, Bool.false_or, if_neg, Bool.false_eq_true, not_false_eq_true]
    rw [fs_hashtable_next]
    simp only [Nat.add_sub_cancel_left]
    rw [fs_hashtable_insert_bucket_count]
    simp only [hashtable_next_loop, hbucket]
    rfl
  · intro h2
    exact toList_iterate_all (fs_hashtable_insert ht entry hash) h2 hlen2
  · intro ht0 h3 hzero hlen0
    exact toList_iterate_zero_buckets ht0 h3 hzero (by omega)

/-- Witness for C8 at a concrete index: 4 buckets, entry 7 inserted with
hash 10, iterate-all drain checked at hash 5, zero-bucket drain checked on a
0-bucket table at hash 3. -/
theorem fs_hashtable_insert_iterate_spec_witness :
    ((fs_hashtable_insert (fs_hashtable_init Nat 4) 7 10).buckets.getD
        (10 % (fs_hashtable_init Nat 4).bucket_count) [] =
      7 :: (fs_hashtable_init Nat 4).buckets.getD
        (10 % (fs_hashtable_init Nat 4).bucket_count) []) ∧
    ((fs_hashtable_next
        (fs_hashtable_iterate (fs_hashtable_insert (fs_hashtable_init Nat 4) 7 10) 10
          false)).map Prod.fst = some 7) ∧
    (fs_hashtable_toList
        (fs_hashtable_iterate (fs_hashtable_insert (fs_hashtable_init Nat 4) 7 10) 5 true) =
      (fs_hashtable_insert (fs_hashtable_init Nat 4) 7 10).buckets.flatten) ∧
    (fs_hashtable_toList (fs_hashtable_iterate (fs_hashtable_init Nat 0) 3 false) =
      (fs_hashtable_init Nat 0).buckets.flatten) := by
  have h := fs_hashtable_insert_iterate_spec (fs_hashtable_init Nat 4) 7 10
    (by decide) (by decide)
  exact ⟨h.1, h.2.1, h.2.2.1 5, h.2.2.2 (fs_hashtable_init Nat 0) 3 (by decide) (by decide)⟩

/- ********************************************************************** -/
/- Theorems: sort keys (C2, C4, C5)                                        -/
/- ********************************************************************** -/

/-- Every collation table entry lies in [21, 250]: in particular every entry
is strictly above the default terminator 0 and strictly below the
prioritize-shorter terminator 255. -/
theorem sort_table_val_bounds : ∀ c, c < 256 → 21 ≤ sort_table_val c ∧ sort_table_val c ≤ 250 := by
  decide

/-- With enough room, the character-copy loop appends the collated bytes of
the whole string. -/
theorem write_sort_chars_no_trunc :
    ∀ (s : List Nat) (out : fsc_stream), out.data.length + s.length ≤ out.size →
      write_sort_chars s out = ⟨out.data ++ s.map sort_table_val, out.size⟩ := by
  intro s
  induction s with
  | nil => intro out _; simp [write_sort_chars]
  | cons c rest ih =>
      intro out hroom
      have hlt : out.data.length < out.size := by
        simp only [List.length_cons] at hroom; omega
      rw [write_sort_chars, if_pos hlt,
        ih ⟨out.data ++ [sort_table_val c], out.size⟩ (by simp; simp at hroom; omega)]
      simp

/-- With enough room, the sort key of a string is its collated bytes followed
by the terminator. -/
theorem sort_string_key_eq (s : List Nat) (prioritize_shorter : Bool) (cap : Nat)
    (hcap : s.length < cap) :
    sort_string_key s prioritize_shorter cap =
      s.map sort_table_val ++ [if prioritize_shorter then 255 else 0] := by
  rw [sort_string_key, fs_write_sort_string,
    write_sort_chars_no_trunc s ⟨[], cap⟩ (by simpa using Nat.le_of_lt hcap)]
  simp only [List.nil_append]
  rw [if_pos (by simpa using hcap)]

/-- Byte-wise lexicographic comparison ignores a shared front segment. -/
theorem bytes_lex_lt_append_left :
    ∀ (p a b : List Nat), bytes_lex_lt (p ++ a) (p ++ b) = bytes_lex_lt a b := by
  intro p
  induction p with
  | nil => intro a b; rfl
  | cons x rest ih => intro a b; simp [bytes_lex_lt, ih]

/-- The little-endian-host path of `fs_write_sort_value` (byte swap followed
by a little-endian 32-bit store) produces exactly the big-endian byte
sequence of the value, i.e. the same bytes a big-endian host stores
directly. -/
theorem byte_swap32_store (v : Nat) : le_store_bytes (byte_swap32 v) = sort_value_bytes v := by
  have hm1 : ∀ j, j < 48 → Nat.testBit 4278255360 j =
      decide (8 ≤ j ∧ j < 16 ∨ 24 ≤ j ∧ j < 32) := by decide
  have hm2 : ∀ j, j < 48 → Nat.testBit 16711935 j =
      decide (j < 8 ∨ 16 ≤ j ∧ j < 24) := by decide
  have c0 : byte_swap32 v % 2 ^ 8 = (v >>> 24) % 2 ^ 8 := by
    apply Nat.eq_of_testBit_eq
    intro i
    by_cases hi : i < 8
    · simp only [byte_swap32, Nat.testBit_mod_two_pow, Nat.testBit_lor, Nat.testBit_land,
        Nat.testBit_shiftLeft, Nat.testBit_shiftRight, hi]
      interval_cases i <;> norm_num [hm1, hm2]
    · simp only [Nat.testBit_mod_two_pow, hi, decide_False, Bool.false_and]
  have c1 : (byte_swap32 v >>> 8) % 2 ^ 8 = (v >>> 16) % 2 ^ 8 := by
    apply Nat.eq_of_testBit_eq
    intro i
    by_cases hi : i < 8
    · simp only [byte_swap32, Nat.testBit_mod_two_pow, Nat.testBit_lor, Nat.testBit_land,
        Nat.testBit_shiftLeft, Nat.testBit_shiftRight, hi]
      interval_cases i <;> norm_num [hm1, hm2]
    · simp only [Nat.testBit_mod_two_pow, hi, decide_False, Bool.false_and]
  have c2 : (byte_swap32 v >>> 16) % 2 ^ 8 = (v >>> 8) % 2 ^ 8 := by
    apply Nat.eq_of_testBit_eq
    intro i
    by_cases hi : i < 8
    · simp only [byte_swap32, Nat.testBit_mod_two_pow, Nat.testBit_lor, Nat.testBit_land,
        Nat.testBit_shiftLeft, Nat.testBit_shiftRight, hi]
      interval_cases i <;> norm_num [hm1, hm2]
    · simp only [Nat.testBit_mod_two_pow, hi, decide_False, Bool.false_and]
  have c3 : (byte_swap32 v >>> 24) % 2 ^ 8 = v % 2 ^ 8 := by
    apply Nat.eq_of_testBit_eq
    intro i
    by_cases hi : i < 8
    · simp only [byte_swap32, Nat.testBit_mod_two_pow, Nat.testBit_lor, Nat.testBit_land,
        Nat.testBit_shiftLeft, Nat.testBit_shiftRight, hi]
      interval_cases i <;> norm_num [hm1, hm2]
    · simp only [Nat.testBit_mod_two_pow, hi, decide_False, Bool.false_and]
  simp only [Nat.shiftRight_eq_div_pow] at c0 c1 c2 c3
  norm_num at c0 c1 c2 c3
  simp [le_store_bytes, sort_value_bytes, c0, c1, c2, c3]

/-- C2: with room in the buffer, `fs_write_sort_value` appends exactly the
4 big-endian bytes of its value — the bytes a little-endian host stores
after the embedded byte swap are the same (host-order independence) — and
for 32-bit values `a < b` the 4-byte field of `a` compares strictly below
that of `b` under unsigned byte-wise lexicographic comparison. -/
theorem fs_write_sort_value_spec (value a b : Nat) (out : fsc_stream)
    (hroom : out.data.length + 3 < out.size) (ha : a < 2 ^ 32) (hb : b < 2 ^ 32)
    (hab : a < b) :
    (fs_write_sort_value value out).data = out.data ++ sort_value_bytes value ∧
    (sort_value_bytes value).length = 4 ∧
    le_store_bytes (byte_swap32 value) = sort_value_bytes value ∧
    bytes_lex_lt (sort_value_bytes a) (sort_value_bytes b) = true := by
  refine ⟨by simp [fs_write_sort_value, hroom], rfl, byte_swap32_store value, ?_⟩
  simp only [sort_value_bytes, bytes_lex_lt]
  split_ifs <;> first | rfl | omega

/-- Witness for C2: value 287454020 (0x11223344) appended to a 1-byte-full
8-byte buffer; monotonicity at a = 5 < b = 600. -/
theorem fs_write_sort_value_spec_witness :
    ((1 : Nat) + 3 < 8 ∧ (5 : Nat) < 2 ^ 32 ∧ (600 : Nat) < 2 ^ 32 ∧ (5 : Nat) < 600) ∧
    ((fs_write_sort_value 287454020 ⟨[9], 8⟩).data = [9] ++ sort_value_bytes 287454020 ∧
    (sort_value_bytes 287454020).length = 4 ∧
    le_store_bytes (byte_swap32 287454020) = sort_value_bytes 287454020 ∧
    bytes_lex_lt (sort_value_bytes 5) (sort_value_bytes 600) = true) :=
  ⟨⟨by decide, by decide, by decide, by decide⟩,
    fs_write_sort_value_spec 287454020 5 600 ⟨[9], 8⟩ (by decide) (by decide) (by decide)
      (by decide)⟩

/-- Counterexample for C4: under the sort-key comparator ("bigger key wins",
`key_sorts_before`), the key for "Abc" (bytes 65, 98, 99) does NOT sort
before the key for "abd" (bytes 97, 98, 100): the collated byte of `c` is
strictly below that of `d`, so "abd" wins.  Also, upper and lower case
letters collate to EQUAL ranks (table[65] = table[97]), not merely adjacent
ones. -/
theorem sort_collation_claim_ce :
    key_sorts_before (sort_string_key [65, 98, 99] false 64)
      (sort_string_key [97, 98, 100] false 64) = false ∧
    sort_table_val 65 = sort_table_val 97 := by decide

/-- C4 (amended): the collation table maps lowercase letters contiguously and
in letter order (table[97+k] = 225+k), uppercase letters contiguously and in
letter order to the SAME values (case folds to equal rank), and digits
contiguously (table[48+k] = 215+k); the collated key of "Abc" compares
byte-wise strictly below the key of "abd" (`c` collates below `d`), so under
the bigger-key-wins comparator "abd" sorts before "Abc". -/
theorem sort_collation_amended :
    (∀ k, k < 26 → sort_table_val (97 + k) = 225 + k) ∧
    (∀ k, k < 26 → sort_table_val (65 + k) = 225 + k) ∧
    (∀ k, k < 10 → sort_table_val (48 + k) = 215 + k) ∧
    bytes_lex_lt (sort_string_key [65, 98, 99] false 64)
      (sort_string_key [97, 98, 100] false 64) = true ∧
    key_sorts_before (sort_string_key [97, 98, 100] false 64)
      (sort_string_key [65, 98, 99] false 64) = true := by decide

/-- Witness for C4 (amended) at concrete letters: `c` (99 = 97+2) collates to
227, `C` (67 = 65+2) the same, digit `7` (55 = 48+7) to 222. -/
theorem sort_collation_amended_witness :
    (2 < 26 ∧ sort_table_val 99 = 227) ∧ (2 < 26 ∧ sort_table_val 67 = 227) ∧
    (7 < 10 ∧ sort_table_val 55 = 222) :=
  ⟨⟨by decide, sort_collation_amended.1 2 (by decide)⟩,
    ⟨by decide, sort_collation_amended.2.1 2 (by decide)⟩,
    ⟨by decide, sort_collation_amended.2.2.1 7 (by decide)⟩⟩

/-- C5: `fs_write_sort_string` appends terminator 0 by default and 255 when
`prioritize_shorter` is set; consequently, for any byte string `s` that is a
strict front segment of `t = s ++ r`, the key of `s` sorts after the key of
`t` under default termination, and before it when `prioritize_shorter` is
set (comparator: bigger key wins, `key_sorts_before`). -/
theorem sort_string_terminator_spec (s r : List Nat) (cap : Nat) (hr : r ≠ [])
    (hbytes : ∀ byt ∈ s ++ r, 0 < byt ∧ byt < 256) (hcap : (s ++ r).length < cap) :
    sort_string_key s false cap = s.map sort_table_val ++ [0] ∧
    sort_string_key s true cap = s.map sort_table_val ++ [255] ∧
    key_sorts_before (sort_string_key (s ++ r) false cap)
      (sort_string_key s false cap) = true ∧
    key_sorts_before (sort_string_key s true cap)
      (sort_string_key (s ++ r) true cap) = true := by
  rcases r with _ | ⟨r0, rtail⟩
  · exact absurd rfl hr
  have hslen : s.length < cap := by
    simp only [List.length_append, List.length_cons] at hcap; omega
  have hr0 : r0 < 256 := by
    have := hbytes r0 (by simp)
    exact this.2
  have hr0tab := sort_table_val_bounds r0 hr0
  have hks0 := sort_string_key_eq s false cap hslen
  have hks1 := sort_string_key_eq s true cap hslen
  have hkt0 := sort_string_key_eq (s ++ r0 :: rtail) false cap hcap
  have hkt1 := sort_string_key_eq (s ++ r0 :: rtail) true cap hcap
  simp only [if_pos, if_neg, Bool.false_eq_true, not_false_eq_true, if_true, if_false] at *
  refine ⟨hks0, hks1, ?_, ?_⟩
  · rw [key_sorts_before, hks0, hkt0, List.map_append]
    rw [List.append_assoc, bytes_lex_lt_append_left]
    simp only [List.map_cons, List.cons_append, bytes_lex_lt]
    rw [if_pos (by omega)]
  · rw [key_sorts_before, hks1, hkt1, List.map_append]
    rw [List.append_assoc, bytes_lex_lt_append_left]
    simp only [List.map_cons, List.cons_append, bytes_lex_lt]
    rw [if_pos (by omega)]

/-- Witness for C5: s = "ab" (bytes 97, 98), t = "abc" (r = [99]),
capacity 16. -/
theorem sort_string_terminator_spec_witness :
    (([99] : List Nat) ≠ [] ∧ (∀ byt ∈ ([97, 98] ++ [99] : List Nat), 0 < byt ∧ byt < 256) ∧
      (([97, 98] ++ [99] : List Nat)).length < 16) ∧
    (sort_string_key [97, 98] false 16 = [97, 98].map sort_table_val ++ [0] ∧
    sort_string_key [97, 98] true 16 = [97, 98].map sort_table_val ++ [255] ∧
    key_sorts_before (sort_string_key ([97, 98] ++ [99]) false 16)
      (sort_string_key [97, 98] false 16) = true ∧
    key_sorts_before (sort_string_key [97, 98] true 16)
      (sort_string_key ([97, 98] ++ [99]) true 16) = true) :=
  ⟨⟨by decide, by decide, by decide⟩,
    sort_string_terminator_spec [97, 98] [99] 16 (by decide) (by decide) (by decide)⟩

/- ********************************************************************** -/
/- Theorems: file disabled checks (C3, C9, C10)                            -/
/- ********************************************************************** -/

/-- `fs_file_disabled` returns the first requested check, in the fixed
order `fd_check_order`, whose trigger condition holds (0 when none does). -/
theorem fs_file_disabled_eq_first_triggered (env : fs_env) (file : fsc_file) (checks : Nat) :
    fs_file_disabled env file checks =
      ((fd_check_order.filter
          (fun c => checks &&& c != 0 && fd_check_triggers env file c)).headD 0) := by
  have e1 : fd_check_triggers env file FD_CHECK_PURE_LIST = fd_trigger_pure_list env file := rfl
  have e2 : fd_check_triggers env file FD_CHECK_READ_INACTIVE_MODS =
      fd_trigger_read_inactive env file := rfl
  have e3 : fd_check_triggers env file FD_CHECK_READ_INACTIVE_MODS_IGNORE_SERVERCFG =
      fd_trigger_read_inactive_ignore env file := rfl
  have e4 : fd_check_triggers env file FD_CHECK_LIST_INACTIVE_MODS =
      fd_trigger_list_inactive env file := rfl
  have e5 : fd_check_triggers env file FD_CHECK_LIST_SERVERCFG_LIMIT =
      fd_trigger_servercfg_limit env file := rfl
  rw [fd_check_order, fs_file_disabled]
  simp only [List.filter_cons, List.filter_nil, e1, e2, e3, e4, e5]
  by_cases h1 : (checks &&& FD_CHECK_PURE_LIST != 0 && fd_trigger_pure_list env file) = true
  · rw [if_pos h1, if_pos h1]; rfl
  rw [if_neg h1, if_neg h1]
  by_cases h2 : (checks &&& FD_CHECK_READ_INACTIVE_MODS != 0 &&
      fd_trigger_read_inactive env file) = true
  · rw [if_pos h2, if_pos h2]; rfl
  rw [if_neg h2, if_neg h2]
  by_cases h3 : (checks &&& FD_CHECK_READ_INACTIVE_MODS_IGNORE_SERVERCFG != 0 &&
      fd_trigger_read_inactive_ignore env file) = true
  · rw [if_pos h3, if_pos h3]; rfl
  rw [if_neg h3, if_neg h3]
  by_cases h4 : (checks &&& FD_CHECK_LIST_INACTIVE_MODS != 0 &&
      fd_trigger_list_inactive env file) = true
  · rw [if_pos h4, if_pos h4]; rfl
  rw [if_neg h4, if_neg h4]
  by_cases h5 : (checks &&& FD_CHECK_LIST_SERVERCFG_LIMIT != 0 &&
      fd_trigger_servercfg_limit env file) = true
  · rw [if_pos h5, if_pos h5]; rfl
  rw [if_neg h5, if_neg h5]
  rfl

/-- C3: `fs_file_disabled` evaluates its checks in the fixed priority order
pure list, read inactive mods, read inactive mods ignoring servercfg, list
inactive mods, servercfg list limit; it short-circuits on the first
triggered requested check and returns its identifier; it returns 0 iff no
requested check triggers; and whenever the pure list check is requested and
triggers, the result is `FD_CHECK_PURE_LIST` — never an inactive-mod
identifier. -/
theorem fs_file_disabled_priority (env : fs_env) (file : fsc_file) (checks : Nat) :
    (fs_file_disabled env file checks =
      ((fd_check_order.filter
          (fun c => checks &&& c != 0 && fd_check_triggers env file c)).headD 0)) ∧
    (fs_file_disabled env file checks = 0 ↔
      ∀ c ∈ fd_check_order, ¬(checks &&& c ≠ 0 ∧ fd_check_triggers env file c = true)) ∧
    (checks &&& FD_CHECK_PURE_LIST ≠ 0 →
      fd_check_triggers env file FD_CHECK_PURE_LIST = true →
      fs_file_disabled env file checks = FD_CHECK_PURE_LIST) := by
  refine ⟨fs_file_disabled_eq_first_triggered env file checks, ?_, ?_⟩
  · rw [fs_file_disabled_eq_first_triggered env file checks]
    rcases hfil : fd_check_order.filter
        (fun c => checks &&& c != 0 && fd_check_triggers env file c) with _ | ⟨c0, rest⟩
    · simp only [List.headD_nil]
      constructor
      · intro _ c hc hcond
        have hnc := List.filter_eq_nil_iff.1 hfil c hc
        simp only [Bool.and_eq_true, bne_iff_ne, ne_eq, not_and] at hnc
        exact hnc hcond.1 hcond.2
      · intro _; trivial
    · have hc0mem : c0 ∈ fd_check_order.filter
          (fun c => checks &&& c != 0 && fd_check_triggers env file c) := by
        rw [hfil]; exact List.mem_cons_self _ _
      have hc0 := List.mem_filter.1 hc0mem
      have hc0ne : c0 ≠ 0 := by
        have hm := hc0.1
        simp only [fd_check_order, List.mem_cons, List.not_mem_nil, or_false] at hm
        rcases hm with h | h | h | h | h <;> subst h <;> decide
      simp only [List.headD_cons]
      constructor
      · intro h0; exact absurd h0 hc0ne
      · intro hall
        exfalso
        apply hall c0 hc0.1
        have hp := hc0.2
        simp only [Bool.and_eq_true, bne_iff_ne, ne_eq] at hp
        exact ⟨hp.1, hp.2⟩
  · intro hmask htrig
    rw [fs_file_disabled]
    have hcond : (checks &&& FD_CHECK_PURE_LIST != 0 && fd_trigger_pure_list env file) = true := by
      rw [Bool.and_eq_true, bne_iff_ne]
      exact ⟨hmask, htrig⟩
    rw [if_pos hcond]

/-- Witness for C3: in the baseline environment (connected pure state 1,
empty pure list) a direct-sourced file with both the pure list check and the
read inactive mods check requested (mask 3) fails both checks, and the
result is the pure list identifier. -/
theorem fs_file_disabled_priority_witness :
    (3 &&& FD_CHECK_PURE_LIST ≠ 0 ∧
      fd_check_triggers sample_env pak_file_a FD_CHECK_PURE_LIST = true ∧
      fd_check_triggers sample_env pak_file_a FD_CHECK_READ_INACTIVE_MODS = true) ∧
    fs_file_disabled sample_env pak_file_a 3 = FD_CHECK_PURE_LIST :=
  ⟨⟨by decide, by decide, by decide⟩,
    (fs_file_disabled_priority sample_env pak_file_a 3).2.2 (by decide) (by decide)⟩

/-- C9: the list-inactive-mods check of `fs_file_disabled` evaluates the
inactive-mod rule at level `min(fs_read_inactive_mods,
fs_list_inactive_mods)`; in particular whenever the read level is at most
the list level, the listing decision coincides with the decision the read
level would produce. -/
theorem fs_file_disabled_list_min (env : fs_env) (file : fsc_file) :
    (fd_trigger_list_inactive env file =
      inactive_mod_file_disabled env file
        (min env.read_inactive_mods env.list_inactive_mods) false) ∧
    (env.read_inactive_mods ≤ env.list_inactive_mods →
      (fs_file_disabled env file FD_CHECK_LIST_INACTIVE_MODS =
          FD_CHECK_LIST_INACTIVE_MODS ↔
        inactive_mod_file_disabled env file env.read_inactive_mods false = true)) := by
  have harg : (if env.read_inactive_mods < env.list_inactive_mods then
      env.read_inactive_mods else env.list_inactive_mods) =
      min env.read_inactive_mods env.list_inactive_mods := by
    rw [min_def]
    split_ifs <;> omega
  constructor
  · rw [fd_trigger_list_inactive, harg]
  · intro hle
    have hmin : min env.read_inactive_mods env.list_inactive_mods =
        env.read_inactive_mods := min_eq_left hle
    have ht4 : fd_trigger_list_inactive env file =
        inactive_mod_file_disabled env file env.read_inactive_mods false := by
      rw [fd_trigger_list_inactive, harg, hmin]
    rw [fs_file_disabled, ht4]
    have h81 : (8 : Nat) &&& 1 = 0 := by decide
    have h82 : (8 : Nat) &&& 2 = 0 := by decide
    have h84 : (8 : Nat) &&& 4 = 0 := by decide
    have h88 : (8 : Nat) &&& 8 = 8 := by decide
    have h816 : (8 : Nat) &&& 16 = 0 := by decide
    cases hv : inactive_mod_file_disabled env file env.read_inactive_mods false <;>
      simp [hv, FD_CHECK_PURE_LIST, FD_CHECK_READ_INACTIVE_MODS,
        FD_CHECK_READ_INACTIVE_MODS_IGNORE_SERVERCFG, FD_CHECK_LIST_INACTIVE_MODS,
        FD_CHECK_LIST_SERVERCFG_LIMIT, h81, h82, h84, h88, h816]

/-- Witness for C9: read level 0, list level 1; the targeted list check is a
no-trigger on an inactive-mod file only because the read rule at level 0
already decides it. -/
theorem fs_file_disabled_list_min_witness :
    (list_level_env.read_inactive_mods ≤ list_level_env.list_inactive_mods) ∧
    (fs_file_disabled list_level_env pak_file_a FD_CHECK_LIST_INACTIVE_MODS =
        FD_CHECK_LIST_INACTIVE_MODS ↔
      inactive_mod_file_disabled list_level_env pak_file_a
        list_level_env.read_inactive_mods false = true) :=
  ⟨by decide, (fs_file_disabled_list_min list_level_env pak_file_a).2 (by decide)⟩

/-- C10: when the connected-server pure state is 1 and the pure list check
is requested, every file whose sourcetype is not `FSC_SOURCETYPE_PK3` has
pk3-list position 0 by definition, and `fs_file_disabled` returns
`FD_CHECK_PURE_LIST` for it — whatever the pure list contains. -/
theorem fs_file_disabled_pure_blocks_non_pk3 (env : fs_env) (file : fsc_file) (checks : Nat)
    (hpure : env.connected_server_pure_state = 1)
    (hmask : checks &&& FD_CHECK_PURE_LIST ≠ 0)
    (hst : file.sourcetype ≠ FSC_SOURCETYPE_PK3) :
    get_pk3_list_position env file = 0 ∧
    fs_file_disabled env file checks = FD_CHECK_PURE_LIST := by
  have hpos : get_pk3_list_position env file = 0 := by
    rw [get_pk3_list_position, if_pos]
    simp [bne_iff_ne, hst]
  refine ⟨hpos, ?_⟩
  rw [fs_file_disabled]
  have hcond : (checks &&& FD_CHECK_PURE_LIST != 0 && fd_trigger_pure_list env file) = true := by
    rw [Bool.and_eq_true, bne_iff_ne]
    refine ⟨hmask, ?_⟩
    rw [fd_trigger_pure_list, hpure, hpos]
    rfl
  rw [if_pos hcond]

/-- Witness for C10: the baseline environment (pure state 1) and a
direct-sourced file, pure list check requested alone. -/
theorem fs_file_disabled_pure_blocks_non_pk3_witness :
    (sample_env.connected_server_pure_state = 1 ∧ 1 &&& FD_CHECK_PURE_LIST ≠ 0 ∧
      pak_file_a.sourcetype ≠ FSC_SOURCETYPE_PK3) ∧
    (get_pk3_list_position sample_env pak_file_a = 0 ∧
      fs_file_disabled sample_env pak_file_a 1 = FD_CHECK_PURE_LIST) :=
  ⟨⟨by decide, by decide, by decide⟩,
    fs_file_disabled_pure_blocks_non_pk3 sample_env pak_file_a 1 (by decide) (by decide)
      (by decide)⟩

/- ********************************************************************** -/
/- Theorems: core pak verifier (C6, C7)                                    -/
/- ********************************************************************** -/

/-- One step of the `get_pak_state` name scan: a non-qualifying file is
skipped, a qualifying file with matching hash ends the scan as both name and
hash match, and a qualifying file with a different hash becomes the running
name match. -/
theorem get_pak_state_loop_cons (env : fs_env) (mod : Option String) (hash : Nat)
    (f : fsc_file) (rest : List fsc_file) (nm : Option fsc_file) :
    get_pak_state_loop env mod hash (f :: rest) nm =
      if pak_qualifies env mod f then
        (if f.pk3_hash == hash then ⟨some f, some f⟩
         else get_pak_state_loop env mod hash rest (some f))
      else get_pak_state_loop env mod hash rest nm := by
  rw [get_pak_state_loop]
  simp only [pak_qualifies, bne_iff_ne, beq_iff_eq, Bool.not_eq_true', Bool.and_eq_true,
    Bool.not_eq_true]
  split_ifs <;> simp_all

/-- Full characterization of the `get_pak_state` name-scan loop: if some
qualifying file matches the hash, the first such file is returned as both
name and hash match; otherwise the name match is the LAST qualifying file
(or the accumulator if none) and the hash match comes from the hash scan. -/
theorem get_pak_state_loop_spec (env : fs_env) (mod : Option String) (hash : Nat) :
    ∀ (files : List fsc_file) (nm : Option fsc_file),
      get_pak_state_loop env mod hash files nm =
        match (files.filter (pak_qualifies env mod)).find? (fun f => f.pk3_hash == hash) with
        | some q => ⟨some q, some q⟩
        | none =>
            match (files.filter (pak_qualifies env mod)).getLast? with
            | some last => ⟨some last, pak_hash_scan env hash⟩
            | none => ⟨nm, pak_hash_scan env hash⟩ := by
  intro files
  induction files with
  | nil => intro nm; rfl
  | cons f rest ih =>
      intro nm
      rw [get_pak_state_loop_cons]
      by_cases hq : pak_qualifies env mod f = true
      · rw [if_pos hq]
        by_cases hh : (f.pk3_hash == hash) = true
        · rw [if_pos hh]
          simp only [List.filter_cons, hq, if_true, List.find?_cons, hh]
        · simp only [Bool.not_eq_true] at hh
          rw [if_neg (by simp [hh]), ih (some f)]
          rcases hfind : (rest.filter (pak_qualifies env mod)).find?
              (fun x => x.pk3_hash == hash) with _ | ⟨q⟩
          · simp only [List.filter_cons, hq, if_true, List.find?_cons, hh, hfind,
              List.getLast?_cons]
            rcases hlast : (rest.filter (pak_qualifies env mod)).getLast? with _ | ⟨last⟩ <;>
              simp [hlast]
          · simp only [List.filter_cons, hq, if_true, List.find?_cons, hh, hfind]
      · simp only [Bool.not_eq_true] at hq
        rw [if_neg (by simp [hq]), ih nm]
        simp [List.filter_cons, hq]

/-- C7 (amended): `get_pak_state` scans the enumerated files of the expected
name for qualifying files (direct-sourced, non-disabled, `.pk3` extension,
expected directory); if one of them carries the expected hash, the first
such file is returned as both name match and hash match (a single file
matching both name and hash yields the state in which the two are the same
object); otherwise the name match is the LAST encountered qualifying file
and, independently, the hash match is the first non-disabled file of the
hash-indexed view. -/
theorem get_pak_state_spec (env : fs_env) (mod : Option String) (filename : String)
    (hash : Nat) :
    get_pak_state env mod filename hash =
      (match ((env.files_named filename).filter (pak_qualifies env mod)).find?
          (fun f => f.pk3_hash == hash) with
       | some q => ⟨some q, some q⟩
       | none =>
           ⟨((env.files_named filename).filter (pak_qualifies env mod)).getLast?,
             (env.pk3s_with_hash hash).find?
               (fun p => fs_file_disabled env p FD_CHECK_READ_INACTIVE_MODS == 0)⟩) := by
  rw [get_pak_state, get_pak_state_loop_spec]
  rcases hfind : ((env.files_named filename).filter (pak_qualifies env mod)).find?
      (fun f => f.pk3_hash == hash) with _ | ⟨q⟩
  · rcases hlast : ((env.files_named filename).filter (pak_qualifies env mod)).getLast? with
      _ | ⟨last⟩ <;> simp [hfind, hlast, pak_hash_scan]
  · simp [hfind]

/-- Counterexample for C7: with two qualifying `pak0` files enumerated
(hashes 111 and 222, target hash 999 matching neither), the name match of
`get_pak_state` is the SECOND (last encountered) qualifying file, not the
first encountered one as the claim states. -/
theorem get_pak_state_first_claim_ce :
    two_pak_env.files_named "pak0" = [pak_file_a, pak_file_b] ∧
    pak_qualifies two_pak_env (some "baseq3") pak_file_a = true ∧
    pak_qualifies two_pak_env (some "baseq3") pak_file_b = true ∧
    pak_file_a ≠ pak_file_b ∧
    get_pak_state two_pak_env (some "baseq3") "pak0" 999 = ⟨some pak_file_b, none⟩ ∧
    (get_pak_state two_pak_env (some "baseq3") "pak0" 999).name_match ≠ some pak_file_a := by
  decide

/-- Witness for C7 (amended) at the same concrete input: the
characterization instantiated at the two-file environment. -/
theorem get_pak_state_spec_witness :
    get_pak_state two_pak_env (some "baseq3") "pak0" 999 =
      (match ((two_pak_env.files_named "pak0").filter
          (pak_qualifies two_pak_env (some "baseq3"))).find?
          (fun f => f.pk3_hash == 999) with
       | some q => ⟨some q, some q⟩
       | none =>
           ⟨((two_pak_env.files_named "pak0").filter
               (pak_qualifies two_pak_env (some "baseq3"))).getLast?,
             (two_pak_env.pk3s_with_hash 999).find?
               (fun p => fs_file_disabled two_pak_env p FD_CHECK_READ_INACTIVE_MODS == 0)⟩) :=
  get_pak_state_spec two_pak_env (some "baseq3") "pak0" 999

/-- C6 (amended): when the configured base game differs (case-insensitively)
from `baseq3` and every expected archive — base set and expansion set — has
no hash match, `fs_check_core_paks` signals standalone mode, returns early,
and produces no warnings; the `com_basegame` guard is required (see the
counterexample). -/
theorem fs_check_core_paks_standalone (env : fs_env)
    (hbg : q_stricmp_eq env.com_basegame BASEGAME = false)
    (hcore : ∀ s ∈ core_pak_states env, s.hash_match = none)
    (hmp : ∀ s ∈ missionpack_pak_states env, s.hash_match = none) :
    fs_check_core_paks env = (true, []) := by
  rw [fs_check_core_paks]
  have hany1 : (core_pak_states env).any (fun s => s.hash_match.isSome) = false := by
    rw [List.any_eq_false]
    intro s hs
    simp [hcore s hs]
  have hany2 : (missionpack_pak_states env).any (fun s => s.hash_match.isSome) = false := by
    rw [List.any_eq_false]
    intro s hs
    simp [hmp s hs]
  simp only [hbg, hany1, hany2, Bool.or_false, Bool.not_false, Bool.and_true, if_true]

/-- Counterexample for C6: with the default base game `baseq3` configured
and nothing enumerated at all, every expected archive has zero hash matches,
yet standalone mode is NOT signalled and per-archive warnings ARE produced
(the standalone check only runs when `com_basegame` differs from
`BASEGAME`). -/
theorem fs_check_core_paks_standalone_ce :
    q_stricmp_eq empty_files_env.com_basegame BASEGAME = true ∧
    (∀ s ∈ core_pak_states empty_files_env, s.hash_match = none) ∧
    (∀ s ∈ missionpack_pak_states empty_files_env, s.hash_match = none) ∧
    (fs_check_core_paks empty_files_env).1 = false ∧
    (fs_check_core_paks empty_files_env).2 ≠ [] := by
  decide

/-- Witness for C6 (amended): base game `mygame`, nothing enumerated: the
verifier signals standalone mode with no warnings. -/
theorem fs_check_core_paks_standalone_witness :
    (q_stricmp_eq standalone_env.com_basegame BASEGAME = false ∧
      (∀ s ∈ core_pak_states standalone_env, s.hash_match = none) ∧
      (∀ s ∈ missionpack_pak_states standalone_env, s.hash_match = none)) ∧
    fs_check_core_paks standalone_env = (true, []) :=
  ⟨⟨by decide, by decide, by decide⟩,
    fs_check_core_paks_standalone standalone_env (by decide) (by decide) (by decide)⟩

end FsMisc
